import Mathlib

/-!
# Verification of the EasyHanzi Feishu data-sync script

Shallow embedding of `src/scripts/fetch-feishu-data.js` (the authoritative
variant of the sync job) and proofs of the specification claims about it.

The embedding models:
* spreadsheet cell values (plain strings, numbers, booleans, null, and
  structured rich-text cells) together with JavaScript truthiness;
* `processSheetData` (lines 213-253 of the script), the row normalizer;
* the orchestration `fetchAndUploadData` together with `getFeishuToken`,
  `getSheetInfo`, `batchGetSheetData` and `uploadToOSS`, as a pure function
  from the environment and an oracle of network responses to a trace of
  side-effecting events and a result.
-/

namespace EasyHanzi

/-- One segment of a structured (rich-text / hyperlink) cell as returned by the
sheets API: the script reads `value[0]?.link` and `value[0]?.text`, observing
only the truthiness of each field, so an absent or `undefined` field is
modelled as the empty string (both are falsy and neither can be told apart by
the code). -/
structure Segment where
  link : String
  text : String
deriving DecidableEq, Repr

/-- A JavaScript cell value as the script can observe it: a plain string, a
number (modelled as an integer; the script only tests truthiness, i.e.
zero-ness), a boolean, `null`/`undefined`, or a structured object (an array of
rich-text segments, which is what the sheets API returns for hyperlink cells
and what `value[0]` indexes into). -/
inductive Cell where
  | s : String → Cell
  | num : Int → Cell
  | b : Bool → Cell
  | null : Cell
  | obj : List Segment → Cell
deriving DecidableEq, Repr

/-- JavaScript truthiness of a cell value: `""`, `0`, `false` and
`null`/`undefined` are falsy; every object (including an empty array) is
truthy. -/
def truthy : Cell → Bool
  | Cell.s t => decide (t ≠ "")
  | Cell.num n => decide (n ≠ 0)
  | Cell.b bb => bb
  | Cell.null => false
  | Cell.obj _ => true

/-- The script's `value || ''`: a falsy value becomes the empty string, a
truthy value passes through unchanged. -/
def coerce (c : Cell) : Cell :=
  if truthy c then c else Cell.s ""

/-- The `icon` branch of `processSheetData`: for a truthy object the script
evaluates `value[0]?.link || value[0]?.text || ''`; for everything else it
falls back to `value || ''`. (`null` is excluded from the object branch by the
`value &&` guard.) -/
def iconValue : Cell → Cell
  | Cell.obj segs =>
      Cell.s (match segs.head? with
        | none => ""
        | some seg =>
            if seg.link ≠ "" then seg.link
            else if seg.text ≠ "" then seg.text
            else "")
  | c => coerce c

/-- JavaScript `String.prototype.trim`: strip leading and trailing whitespace.
Defined structurally on the character list (Lean core's `String.trim` is
defined by well-founded recursion on byte positions and does not reduce
inside the kernel, which concrete evaluations need). -/
def jsTrim (s : String) : String :=
  String.mk (((s.data.dropWhile Char.isWhitespace).reverse.dropWhile
    Char.isWhitespace).reverse)

example : jsTrim " a " = "a" := by decide

example : jsTrim "  " = "" := by decide

/-- Per-cell normalization: the script special-cases the (untrimmed) header
`'icon'` (`header === 'icon'`) and otherwise stores `value || ''`. -/
def processCell (header : String) (value : Cell) : Cell :=
  if header = "icon" then iconValue value else coerce value

/-- A normalized record: a JavaScript object, i.e. an ordered association list
from field names to values, with insertion-order keys. -/
abbrev Record : Type := List (String × Cell)

/-- JavaScript property assignment `item[key] = v`: overwrite in place when the
key exists, otherwise append. -/
def jsSet {α : Type} : List (String × α) → String → α → List (String × α)
  | [], key, v => [(key, v)]
  | p :: rest, key, v =>
      if p.1 = key then (key, v) :: rest else p :: jsSet rest key v

/-- The error message produced by calling `.trim()` on a non-string header. -/
def trimErrMsg : String := "TypeError: header.trim is not a function"

/-- The body of the `headers.forEach((header, index) => ...)` loop of
`processSheetData`, walking the header cells left to right with their column
index. For a string header the guard `header && header.trim()` reduces to
`header.trim() !== ''` (an empty string trims to itself); falsy non-string
headers are skipped by the `header &&` short-circuit, and truthy non-string
headers throw a `TypeError` from `.trim()`. The cell value is
`index < row.length ? row[index] : ''`, rendered as `row.getD index ''`. -/
def processRowGo (item : Record) (headers row : List Cell) (index : Nat) :
    Except String Record :=
  match headers with
  | [] => Except.ok item
  | header :: rest =>
      match header with
      | Cell.s t =>
          if jsTrim t = "" then processRowGo item rest row (index + 1)
          else
            processRowGo (jsSet item t (processCell t (row.getD index (Cell.s ""))))
              rest row (index + 1)
      | Cell.null => processRowGo item rest row (index + 1)
      | Cell.num n =>
          if n = 0 then processRowGo item rest row (index + 1)
          else Except.error trimErrMsg
      | Cell.b bb =>
          if bb then Except.error trimErrMsg
          else processRowGo item rest row (index + 1)
      | Cell.obj _ => Except.error trimErrMsg

/-- One data row of `processSheetData`'s `rows.map((row, rowIndex) => ...)`
callback: build the record field by field from the header row. -/
def processRow (headers row : List Cell) : Except String Record :=
  processRowGo [] headers row 0

/-- The pure result of `processRow` when every header cell is a plain string
(the loop body specialised to string headers). -/
def processRowPureGo (item : Record) (headers : List String) (row : List Cell)
    (index : Nat) : Record :=
  match headers with
  | [] => item
  | h :: rest =>
      if jsTrim h = "" then processRowPureGo item rest row (index + 1)
      else
        processRowPureGo (jsSet item h (processCell h (row.getD index (Cell.s ""))))
          rest row (index + 1)

/-- `processRow` on a grid whose header row consists of plain strings. -/
def processRowPure (headers : List String) (row : List Cell) : Record :=
  processRowPureGo [] headers row 0

/-- The script's row filter `Object.values(item).some(v => v !== '')`: a record
is kept exactly when some field value differs from the empty string. -/
def keepRecord (item : Record) : Bool :=
  item.any (fun p => decide (p.2 ≠ Cell.s ""))

/-- `rows.map(...)` with a callback that may throw: the exception propagates
out of the whole map. -/
def mapRows (headers : List Cell) : List (List Cell) → Except String (List Record)
  | [] => Except.ok []
  | r :: rest => do
      let item ← processRow headers r
      let out ← mapRows headers rest
      pure (item :: out)

/-- A Value Range as returned by the batch read endpoint: the requested range
string and the (possibly absent) rectangular grid of cell values. -/
structure ValueRange where
  range : String
  values : Option (List (List Cell))
deriving DecidableEq, Repr

/-- The error thrown when the guard branch's warn template reads
`valueRange.range` on `undefined`. -/
def undefinedRangeMsg : String :=
  "TypeError: Cannot read property range of undefined"

/-- `processSheetData` (lines 213-253): guard against a missing/short grid,
split off the header row, normalize every data row, and drop all-empty
records. The argument is optional because the script indexes
`valueRanges[0..3]` without a bounds check; for an `undefined` argument the
guard branch is taken, but its `console.warn` template evaluates
`valueRange.range` on `undefined` and throws a `TypeError` before the
`return []` is reached. For a present range with a missing or short grid the
template merely stringifies a possibly-undefined property, so the guard
returns the empty array without error. -/
def processSheetData (valueRange : Option ValueRange) : Except String (List Record) :=
  match valueRange with
  | none => Except.error undefinedRangeMsg
  | some vr =>
      match vr.values with
      | none => Except.ok []
      | some values =>
          if values.length < 2 then Except.ok []
          else
            let headers := values.headD []
            let rows := values.tail
            (mapRows headers rows).map (fun processedData => processedData.filter keepRecord)

example :
    processSheetData (some ⟨"s!A1:Z3000", some [[Cell.s "a", Cell.s "b"], [Cell.s "x"]]⟩) =
      Except.ok [[("a", Cell.s "x"), ("b", Cell.s "")]] := by rfl

example :
    processSheetData (some ⟨"s!A1:Z3000", some [[Cell.s " a "], [Cell.s "x"]]⟩) =
      Except.ok [[(" a ", Cell.s "x")]] := by rfl

example :
    processSheetData (some ⟨"s!A1:Z3000",
        some [[Cell.s "icon"], [Cell.obj [⟨"L", "T"⟩]]]⟩) =
      Except.ok [[("icon", Cell.s "L")]] := by rfl

example :
    processSheetData (some ⟨"s!A1:Z3000", some [[Cell.s "a"], [Cell.num 0]]⟩) =
      Except.ok [] := by rfl

/-! ## Association-list lemmas for `jsSet` -/

theorem lookup_cons {α : Type} (k a : String) (v : α) (l : List (String × α)) :
    List.lookup k ((a, v) :: l) = if k = a then some v else List.lookup k l := by
  simp only [List.lookup]
  by_cases h : k = a
  · rw [if_pos h, beq_iff_eq.mpr h]
  · rw [if_neg h, beq_eq_false_iff_ne.mpr h]

theorem jsSet_lookup_self {α : Type} (item : List (String × α)) (key : String) (v : α) :
    (jsSet item key v).lookup key = some v := by
  induction item with
  | nil => simp [jsSet, lookup_cons]
  | cons p rest ih =>
      rcases p with ⟨a, w⟩
      by_cases h : a = key
      · simp [jsSet, h, lookup_cons]
      · simp [jsSet, h, lookup_cons, Ne.symm h, ih]

theorem jsSet_lookup_other {α : Type} (item : List (String × α)) (key k : String) (v : α)
    (h : k ≠ key) : (jsSet item key v).lookup k = item.lookup k := by
  induction item with
  | nil => simp [jsSet, lookup_cons, h]
  | cons p rest ih =>
      rcases p with ⟨a, w⟩
      by_cases hp : a = key
      · subst hp
        simp [jsSet, lookup_cons, h]
      · simp [jsSet, hp, lookup_cons, ih]

theorem jsSet_keys_mem {α : Type} (item : List (String × α)) (key : String) (v : α)
    (h : key ∈ item.map Prod.fst) :
    (jsSet item key v).map Prod.fst = item.map Prod.fst := by
  induction item with
  | nil => simp at h
  | cons p rest ih =>
      by_cases hp : p.1 = key
      · simp [jsSet, hp]
      · simp only [List.map_cons, List.mem_cons] at h
        rcases h with h | h
        · exact absurd h.symm hp
        · simp [jsSet, hp, ih h]

theorem jsSet_keys_notMem {α : Type} (item : List (String × α)) (key : String) (v : α)
    (h : key ∉ item.map Prod.fst) :
    (jsSet item key v).map Prod.fst = item.map Prod.fst ++ [key] := by
  induction item with
  | nil => simp [jsSet]
  | cons p rest ih =>
      simp only [List.map_cons, List.mem_cons] at h
      push_neg at h
      simp [jsSet, Ne.symm h.1, ih h.2]

theorem jsSet_values {α : Type} (P : α → Prop) :
    ∀ (item : List (String × α)) (key : String) (v : α),
      (∀ p ∈ item, P p.2) → P v → ∀ p ∈ jsSet item key v, P p.2
  | [], key, v, _, hv, p, hp => by
      simp only [jsSet, List.mem_singleton] at hp
      subst hp
      exact hv
  | q :: rest, key, v, hitem, hv, p, hp => by
      by_cases hq : q.1 = key
      · rw [jsSet, if_pos hq] at hp
        rcases List.mem_cons.mp hp with h | h
        · subst h
          exact hv
        · exact hitem p (List.mem_cons_of_mem q h)
      · rw [jsSet, if_neg hq] at hp
        rcases List.mem_cons.mp hp with h | h
        · subst h
          exact hitem p (List.mem_cons_self p rest)
        · exact jsSet_values P rest key v
            (fun r hr => hitem r (List.mem_cons_of_mem q hr)) hv p h

/-! ## Bridging the cell-level loop to the string-header loop -/

theorem processRowGo_strings (hs : List String) (row : List Cell) :
    ∀ (item : Record) (index : Nat),
      processRowGo item (hs.map Cell.s) row index =
        Except.ok (processRowPureGo item hs row index) := by
  induction hs with
  | nil => intro item index; rfl
  | cons h rest ih =>
      intro item index
      by_cases ht : jsTrim h = ""
      · simp [processRowGo, processRowPureGo, ht, ih]
      · simp [processRowGo, processRowPureGo, ht, ih]

theorem processRow_strings (hs : List String) (row : List Cell) :
    processRow (hs.map Cell.s) row = Except.ok (processRowPure hs row) :=
  processRowGo_strings hs row [] 0

theorem mapRows_strings (hs : List String) (rows : List (List Cell)) :
    mapRows (hs.map Cell.s) rows = Except.ok (rows.map (processRowPure hs)) := by
  induction rows with
  | nil => rfl
  | cons r rest ih =>
      simp only [mapRows, processRow_strings, ih, List.map_cons]
      rfl

theorem processSheetData_strings (rangeStr : String) (hs : List String)
    (rows : List (List Cell)) :
    processSheetData (some ⟨rangeStr, some (hs.map Cell.s :: rows)⟩) =
      Except.ok ((rows.map (processRowPure hs)).filter keepRecord) := by
  cases rows with
  | nil => rfl
  | cons r rest =>
      simp [processSheetData, mapRows_strings, Except.map]

/-! ## Lookup and key lemmas for the string-header loop -/

theorem processRowPureGo_lookup_notMem (hs : List String) (k : String) (hk : k ∉ hs) :
    ∀ (item : Record) (row : List Cell) (index : Nat),
      (processRowPureGo item hs row index).lookup k = item.lookup k := by
  induction hs with
  | nil => intro item row index; rfl
  | cons h rest ih =>
      intro item row index
      have hne : k ≠ h := fun he => hk (he ▸ List.mem_cons_self h rest)
      have hrest : k ∉ rest := fun hm => hk (List.mem_cons_of_mem h hm)
      by_cases ht : jsTrim h = ""
      · simp [processRowPureGo, ht, ih hrest]
      · simp [processRowPureGo, ht, ih hrest, jsSet_lookup_other _ _ _ _ hne]

theorem processRowPureGo_lookup_mem (hs : List String) (k : String)
    (hnd : hs.Nodup) (hk : k ∈ hs) (htrim : jsTrim k ≠ "") :
    ∀ (item : Record) (row : List Cell) (index : Nat),
      (processRowPureGo item hs row index).lookup k =
        some (processCell k (row.getD (index + hs.indexOf k) (Cell.s ""))) := by
  induction hs with
  | nil => simp at hk
  | cons h rest ih =>
      intro item row index
      rcases List.mem_cons.mp hk with rfl | hmem
      · have hrest : k ∉ rest := (List.nodup_cons.mp hnd).1
        simp only [processRowPureGo, if_neg htrim]
        rw [processRowPureGo_lookup_notMem rest k hrest, jsSet_lookup_self,
          List.indexOf_cons_self, Nat.add_zero]
      · have hne : h ≠ k := by
          rintro rfl
          exact (List.nodup_cons.mp hnd).1 hmem
        have hnd2 : rest.Nodup := (List.nodup_cons.mp hnd).2
        have hidx : (h :: rest).indexOf k = rest.indexOf k + 1 := by
          simpa using List.indexOf_cons_ne rest hne
        have harith : index + 1 + rest.indexOf k = index + (h :: rest).indexOf k := by
          rw [hidx]
          omega
        by_cases ht : jsTrim h = ""
        · simp only [processRowPureGo, if_pos ht]
          rw [ih hnd2 hmem, harith]
        · simp only [processRowPureGo, if_neg ht]
          rw [ih hnd2 hmem, harith]

theorem processRowPure_lookup (hs : List String) (k : String)
    (hnd : hs.Nodup) (hk : k ∈ hs) (htrim : jsTrim k ≠ "") (row : List Cell) :
    (processRowPure hs row).lookup k =
      some (processCell k (row.getD (hs.indexOf k) (Cell.s ""))) := by
  have := processRowPureGo_lookup_mem hs k hnd hk htrim [] row 0
  simpa [processRowPure] using this

theorem processRowPureGo_keys (hs : List String) (hnd : hs.Nodup) :
    ∀ (item : Record) (row : List Cell) (index : Nat),
      (∀ h ∈ hs, h ∉ item.map Prod.fst) →
      (processRowPureGo item hs row index).map Prod.fst =
        item.map Prod.fst ++ hs.filter (fun h => decide (jsTrim h ≠ "")) := by
  induction hs with
  | nil => intro item row index _; simp [processRowPureGo]
  | cons h rest ih =>
      intro item row index hdis
      have hnd2 : rest.Nodup := (List.nodup_cons.mp hnd).2
      have hrest : h ∉ rest := (List.nodup_cons.mp hnd).1
      by_cases ht : jsTrim h = ""
      · simp only [processRowPureGo, if_pos ht]
        rw [ih hnd2 item row (index + 1)
          (fun g hg => hdis g (List.mem_cons_of_mem h hg))]
        simp [List.filter_cons, ht]
      · simp only [processRowPureGo, if_neg ht]
        rw [ih hnd2 _ row (index + 1)]
        · rw [jsSet_keys_notMem _ _ _ (hdis h (List.mem_cons_self h rest))]
          simp [List.filter_cons, ht]
        · intro g hg
          rw [jsSet_keys_notMem _ _ _ (hdis h (List.mem_cons_self h rest))]
          simp only [List.mem_append, List.mem_singleton]
          rintro (hmem | rfl)
          · exact hdis g (List.mem_cons_of_mem h hg) hmem
          · exact hrest hg

theorem processRowPure_keys (hs : List String) (hnd : hs.Nodup) (row : List Cell) :
    (processRowPure hs row).map Prod.fst =
      hs.filter (fun h => decide (jsTrim h ≠ "")) := by
  simpa [processRowPure] using processRowPureGo_keys hs hnd [] row 0 (by simp)

/-! ## The orchestration model

`fetchAndUploadData` is modelled as a pure function of the process
environment and an oracle supplying the responses of the external services.
It returns the ordered trace of side-effecting events it performs together
with its result (the assembled App Data Document on success, the error that
aborted the run otherwise; the script's `catch` turns any error into
`process.exit(1)`, i.e. a non-zero exit). -/

/-- The process environment: each required variable is `none` when absent.
The script reads these once at module load; `process.env.X` is `undefined`
when unset, and the script tests all of them with `!X`, so an empty-string
value behaves like an absent one. -/
structure Env where
  FEISHU_APP_ID : Option String
  FEISHU_APP_SECRET : Option String
  FEISHU_SPREADSHEET_TOKEN : Option String
  OSS_ACCESS_KEY_ID : Option String
  OSS_ACCESS_KEY_SECRET : Option String
  OSS_BUCKET : Option String
  OSS_REGION : Option String
deriving DecidableEq, Repr

/-- The string value of an environment variable: absent reads as `""` (both
are falsy, and the script only ever tests truthiness before use). -/
def envStr (v : Option String) : String := v.getD ""

/-- `OSS_REGION || 'oss-cn-hangzhou'` (line 37): the region defaults and is
never checked. -/
def ossRegionValue (env : Env) : String :=
  if envStr env.OSS_REGION = "" then "oss-cn-hangzhou" else envStr env.OSS_REGION

/-- One sheet of the spreadsheet metadata returned by the sheets-query
endpoint. -/
structure Sheet where
  title : String
  sheet_id : String
deriving DecidableEq, Repr

/-- Response of the token-exchange endpoint. -/
structure TokenResp where
  code : Int
  msg : String
  tenant_access_token : String
deriving DecidableEq, Repr

/-- Response of the sheets-query endpoint. -/
structure SheetsResp where
  code : Int
  msg : String
  sheets : List Sheet
deriving DecidableEq, Repr

/-- Response of the batched values read endpoint. -/
structure BatchResp where
  code : Int
  msg : String
  valueRanges : List ValueRange
deriving DecidableEq, Repr

/-- The oracle of external behaviour for one run: what each endpoint answers,
whether the OSS put succeeds, and the timestamp `new Date().toISOString()`
produces. -/
structure Oracle where
  tokenResp : TokenResp
  sheetsResp : SheetsResp
  batchResp : BatchResp
  uploadOk : Bool
  now : String
deriving DecidableEq, Repr

/-- The observable side effects of a run, in order: the three Feishu network
calls, the local output-file write, and the OSS upload network call. -/
inductive Event where
  | netTokenExchange
  | netSheetQuery
  | netBatchGet
  | localWrite
  | netUpload
deriving DecidableEq, Repr

/-- Which events are network calls (everything except the local file
write). -/
def Event.isNetwork : Event → Bool
  | Event.localWrite => false
  | _ => true

/-- The kinds of error that abort a run, classifying the `throw new Error`
sites of the script; each run ends in `process.exit(1)` when one occurs. -/
inductive RunError where
  | config : String → RunError
  | auth : Int → String → RunError
  | fetch : String → RunError
  | missingSheet : String → RunError
  | processing : String → RunError
  | emptyDataset : RunError
  | publish : String → RunError
deriving DecidableEq, Repr

/-- Line 68: the message for missing Feishu credentials. -/
def feishuCredMsg : String :=
  "缺少飞书应用凭证，请检查环境变量 FEISHU_APP_ID 和 FEISHU_APP_SECRET"

/-- Line 108: the message for a missing token or spreadsheet id. -/
def sheetInfoArgMsg : String := "缺少访问令牌或电子表格ID"

/-- Lines 268, 272, 276: the messages for missing OSS configuration. -/
def missingKeyIdMsg : String := "缺少 OSS_ACCESS_KEY_ID 环境变量"

def missingKeySecretMsg : String := "缺少 OSS_ACCESS_KEY_SECRET 环境变量"

def missingBucketMsg : String := "缺少 OSS_BUCKET 环境变量"

/-- `SHEET_NAMES` (lines 42-47): the logical table keys and their required
sheet titles, in declaration order. -/
def SHEET_NAMES : List (String × String) :=
  [("courses", "Courses"), ("characters", "Characters"),
   ("words", "Words"), ("sentences", "Sentences")]

/-- The required sheet titles in the order `getSheetInfo` validates them. -/
def requiredSheetTitles : List String := SHEET_NAMES.map Prod.snd

/-- The `sheets.reduce((acc, sheet) => { acc[sheet.title] = sheet.sheet_id; ... })`
of lines 127-130: build the title-to-id map by repeated property
assignment (a later sheet with the same title overwrites an earlier one). -/
def buildSheetMap (sheets : List Sheet) : List (String × String) :=
  sheets.foldl (fun acc sh => jsSet acc sh.title sh.sheet_id) []

/-- `sheetMap[name]` as the script observes it in `if (!sheetMap[name])`: the
mapped id, or `""` when the title is absent (an absent property is
`undefined`; an empty id is equally falsy). -/
def sheetMapGet (sheets : List Sheet) (name : String) : String :=
  envStr ((buildSheetMap sheets).lookup name)

/-- `getFeishuToken` (lines 62-94): fail on missing credentials before the
POST; otherwise one token-exchange call, failing when the response code is
non-zero. -/
def getFeishuToken (env : Env) (o : Oracle) : List Event × Except RunError String :=
  if envStr env.FEISHU_APP_ID = "" ∨ envStr env.FEISHU_APP_SECRET = "" then
    ([], Except.error (RunError.config feishuCredMsg))
  else if o.tokenResp.code ≠ 0 then
    ([Event.netTokenExchange],
      Except.error (RunError.auth o.tokenResp.code o.tokenResp.msg))
  else
    ([Event.netTokenExchange], Except.ok o.tokenResp.tenant_access_token)

/-- `getSheetInfo` (lines 102-150): check the arguments, perform the
sheets-query call, build the title map, and verify every required sheet
title, failing with the first missing one in `SHEET_NAMES` order. -/
def getSheetInfo (token : String) (spreadsheetToken : Option String) (o : Oracle) :
    List Event × Except RunError (List Sheet) :=
  if token = "" ∨ envStr spreadsheetToken = "" then
    ([], Except.error (RunError.config sheetInfoArgMsg))
  else if o.sheetsResp.code ≠ 0 then
    ([Event.netSheetQuery], Except.error (RunError.fetch o.sheetsResp.msg))
  else
    match requiredSheetTitles.find?
        (fun name => decide (sheetMapGet o.sheetsResp.sheets name = "")) with
    | some name =>
        ([Event.netSheetQuery], Except.error (RunError.missingSheet name))
    | none => ([Event.netSheetQuery], Except.ok o.sheetsResp.sheets)

/-- The comma-joined `sheetId!A1:Z3000` ranges parameter of
`batchGetSheetData` (lines 164-171). -/
def buildRangesParam (sheets : List Sheet) : String :=
  String.intercalate ","
    (requiredSheetTitles.map (fun name => sheetMapGet sheets name ++ "!A1:Z3000"))

/-- `batchGetSheetData` (lines 159-206): one batched read call; a non-zero
response code aborts, otherwise the value ranges are returned in request
order. -/
def batchGetSheetData (o : Oracle) : List Event × Except RunError (List ValueRange) :=
  if o.batchResp.code ≠ 0 then
    ([Event.netBatchGet], Except.error (RunError.fetch o.batchResp.msg))
  else
    ([Event.netBatchGet], Except.ok o.batchResp.valueRanges)

/-- `uploadToOSS` (lines 260-313): the three credential checks (the region is
defaulted, never checked), then the put. -/
def uploadToOSS (env : Env) (o : Oracle) : List Event × Except RunError Unit :=
  if envStr env.OSS_ACCESS_KEY_ID = "" then
    ([], Except.error (RunError.config missingKeyIdMsg))
  else if envStr env.OSS_ACCESS_KEY_SECRET = "" then
    ([], Except.error (RunError.config missingKeySecretMsg))
  else if envStr env.OSS_BUCKET = "" then
    ([], Except.error (RunError.config missingBucketMsg))
  else if o.uploadOk then
    ([Event.netUpload], Except.ok ())
  else
    ([Event.netUpload], Except.error (RunError.publish "OSS上传失败"))

/-- A top-level field of the App Data Document: the timestamp or one of the
four normalized tables. -/
inductive DocField where
  | stamp : String → DocField
  | table : List Record → DocField
deriving DecidableEq, Repr

/-- The App Data Document as a JavaScript object: an ordered key-value list. -/
abbrev AppDoc : Type := List (String × DocField)

/-- The object literal of lines 333-339: `lastUpdated` first, then the four
tables in the fixed order courses, characters, words, sentences. -/
def assembleAppData (lastUpdated : String)
    (courses characters words sentences : List Record) : AppDoc :=
  [("lastUpdated", DocField.stamp lastUpdated),
   ("courses", DocField.table courses),
   ("characters", DocField.table characters),
   ("words", DocField.table words),
   ("sentences", DocField.table sentences)]

/-- Steps 4-7 of `fetchAndUploadData` (lines 332-361): normalize the four
value ranges (`valueRanges[i]` is `undefined` past the end of the array; a
`TypeError` thrown inside `processSheetData` propagates to the catch),
assemble the document, require at least one non-empty table, write the local
file, and upload. -/
def processAndPublish (env : Env) (o : Oracle) (valueRanges : List ValueRange) :
    List Event × Except RunError AppDoc :=
  match processSheetData valueRanges[0]?, processSheetData valueRanges[1]?,
      processSheetData valueRanges[2]?, processSheetData valueRanges[3]? with
  | Except.ok courses, Except.ok characters, Except.ok words, Except.ok sentences =>
      let appData := assembleAppData o.now courses characters words sentences
      let dataStats :=
        [courses.length, characters.length, words.length, sentences.length]
      if dataStats.any (fun count => decide (count > 0)) then
        let (t4, r4) := uploadToOSS env o
        match r4 with
        | Except.error e => (Event.localWrite :: t4, Except.error e)
        | Except.ok _ => (Event.localWrite :: t4, Except.ok appData)
      else ([], Except.error RunError.emptyDataset)
  | Except.error m, _, _, _ => ([], Except.error (RunError.processing m))
  | _, Except.error m, _, _ => ([], Except.error (RunError.processing m))
  | _, _, Except.error m, _ => ([], Except.error (RunError.processing m))
  | _, _, _, Except.error m => ([], Except.error (RunError.processing m))

/-- `fetchAndUploadData` (lines 318-368): token, sheet metadata, batched
read, then normalization and publishing; any error ends the run (the catch
logs and calls `process.exit(1)`). -/
def fetchAndUploadData (env : Env) (o : Oracle) :
    List Event × Except RunError AppDoc :=
  let (t1, r1) := getFeishuToken env o
  match r1 with
  | Except.error e => (t1, Except.error e)
  | Except.ok token =>
      let (t2, r2) := getSheetInfo token env.FEISHU_SPREADSHEET_TOKEN o
      match r2 with
      | Except.error e => (t1 ++ t2, Except.error e)
      | Except.ok _sheetsInfo =>
          let (t3, r3) := batchGetSheetData o
          match r3 with
          | Except.error e => (t1 ++ t2 ++ t3, Except.error e)
          | Except.ok valueRanges =>
              let (t4, r4) := processAndPublish env o valueRanges
              (t1 ++ t2 ++ t3 ++ t4, r4)

/-! ## Helper lemmas about falsy cells and indexing -/

theorem processCell_falsy (k : String) (c : Cell) (h : truthy c = false) :
    processCell k c = Cell.s "" := by
  cases c with
  | s t =>
      have ht : t = "" := by simpa [truthy] using h
      subst ht
      by_cases hk : k = "icon" <;> simp [processCell, hk, iconValue, coerce, truthy]
  | num n =>
      have hn : n = 0 := by simpa [truthy] using h
      subst hn
      by_cases hk : k = "icon" <;> simp [processCell, hk, iconValue, coerce, truthy]
  | b bb =>
      have hb : bb = false := by simpa [truthy] using h
      subst hb
      by_cases hk : k = "icon" <;> simp [processCell, hk, iconValue, coerce, truthy]
  | null =>
      by_cases hk : k = "icon" <;> simp [processCell, hk, iconValue, coerce, truthy]
  | obj segs => simp [truthy] at h

theorem getD_lt (row : List Cell) (i : Nat) (h : i < row.length) :
    row.getD i (Cell.s "") = row.get ⟨i, h⟩ := by
  simp [List.getD_eq_getElem?_getD, List.getElem?_eq_getElem h]

theorem getD_falsy (row : List Cell) (hrow : ∀ c ∈ row, truthy c = false) (index : Nat) :
    truthy (row.getD index (Cell.s "")) = false := by
  induction row generalizing index with
  | nil => simp [truthy]
  | cons c rest ih =>
      cases index with
      | zero => simpa using hrow c (List.mem_cons_self c rest)
      | succ n => simpa using ih (fun x hx => hrow x (List.mem_cons_of_mem c hx)) n

theorem processRowPureGo_falsy_values (hs : List String) (row : List Cell)
    (hrow : ∀ c ∈ row, truthy c = false) :
    ∀ (item : Record) (index : Nat),
      (∀ p ∈ item, p.2 = Cell.s "") →
      ∀ p ∈ processRowPureGo item hs row index, p.2 = Cell.s "" := by
  induction hs with
  | nil =>
      intro item index hitem
      simpa [processRowPureGo] using hitem
  | cons h rest ih =>
      intro item index hitem
      by_cases ht : jsTrim h = ""
      · simp only [processRowPureGo, if_pos ht]
        exact ih item (index + 1) hitem
      · simp only [processRowPureGo, if_neg ht]
        apply ih _ (index + 1)
        exact jsSet_values (fun v => v = Cell.s "") item h _ hitem
          (processCell_falsy h _ (getD_falsy row hrow index))

/-! ## Run-level helper lemmas -/

theorem getFeishuToken_ok (env : Env) (o : Oracle)
    (h1 : envStr env.FEISHU_APP_ID ≠ "") (h2 : envStr env.FEISHU_APP_SECRET ≠ "")
    (h3 : o.tokenResp.code = 0) :
    getFeishuToken env o =
      ([Event.netTokenExchange], Except.ok o.tokenResp.tenant_access_token) := by
  simp [getFeishuToken, h1, h2, h3]

theorem find_missing_none (sheets : List Sheet)
    (hall : ∀ t ∈ requiredSheetTitles, sheetMapGet sheets t ≠ "") :
    requiredSheetTitles.find?
      (fun name => decide (sheetMapGet sheets name = "")) = none := by
  rw [List.find?_eq_none]
  intro x hx
  simp [hall x hx]

theorem getSheetInfo_ok (token : String) (sp : Option String) (o : Oracle)
    (h1 : token ≠ "") (h2 : envStr sp ≠ "") (h3 : o.sheetsResp.code = 0)
    (h4 : ∀ t ∈ requiredSheetTitles, sheetMapGet o.sheetsResp.sheets t ≠ "") :
    getSheetInfo token sp o =
      ([Event.netSheetQuery], Except.ok o.sheetsResp.sheets) := by
  simp [getSheetInfo, h1, h2, h3, find_missing_none o.sheetsResp.sheets h4]

theorem getSheetInfo_missing (token : String) (sp : Option String) (o : Oracle)
    (name : String) (h1 : token ≠ "") (h2 : envStr sp ≠ "")
    (h3 : o.sheetsResp.code = 0)
    (hfind : requiredSheetTitles.find?
        (fun nm => decide (sheetMapGet o.sheetsResp.sheets nm = "")) = some name) :
    getSheetInfo token sp o =
      ([Event.netSheetQuery], Except.error (RunError.missingSheet name)) := by
  simp [getSheetInfo, h1, h2, h3, hfind]

theorem buildSheetMapGo_lookup_absent (name : String) :
    ∀ (sheets : List Sheet) (acc : List (String × String)),
      (∀ sh ∈ sheets, sh.title ≠ name) → acc.lookup name = none →
      (sheets.foldl (fun a sh => jsSet a sh.title sh.sheet_id) acc).lookup name = none
  | [], _, _, hacc => hacc
  | sh :: rest, acc, h, hacc => by
      simp only [List.foldl_cons]
      refine buildSheetMapGo_lookup_absent name rest _
        (fun x hx => h x (List.mem_cons_of_mem sh hx)) ?_
      rw [jsSet_lookup_other acc sh.title name sh.sheet_id
        (fun he => h sh (List.mem_cons_self sh rest) he.symm)]
      exact hacc

theorem sheetMapGet_absent (sheets : List Sheet) (name : String)
    (h : ∀ sh ∈ sheets, sh.title ≠ name) : sheetMapGet sheets name = "" := by
  simp [sheetMapGet, buildSheetMap,
    buildSheetMapGo_lookup_absent name sheets [] h rfl, envStr]

theorem find_missing_unique (sheets : List Sheet) (name : String)
    (h7 : name ∈ requiredSheetTitles)
    (habs : sheetMapGet sheets name = "")
    (h9 : ∀ t ∈ requiredSheetTitles, t ≠ name → sheetMapGet sheets t ≠ "") :
    requiredSheetTitles.find?
      (fun nm => decide (sheetMapGet sheets nm = "")) = some name := by
  have hC : "Courses" ∈ requiredSheetTitles := by decide
  have hH : "Characters" ∈ requiredSheetTitles := by decide
  have hW : "Words" ∈ requiredSheetTitles := by decide
  have hS : "Sentences" ∈ requiredSheetTitles := by decide
  simp only [requiredSheetTitles, SHEET_NAMES, List.map_cons, List.map_nil,
    List.mem_cons, List.not_mem_nil, or_false] at h7
  rcases h7 with rfl | rfl | rfl | rfl
  · simp [requiredSheetTitles, SHEET_NAMES, List.find?, habs]
  · have n1 := h9 "Courses" hC (by decide)
    simp [requiredSheetTitles, SHEET_NAMES, List.find?, habs, n1]
  · have n1 := h9 "Courses" hC (by decide)
    have n2 := h9 "Characters" hH (by decide)
    simp [requiredSheetTitles, SHEET_NAMES, List.find?, habs, n1, n2]
  · have n1 := h9 "Courses" hC (by decide)
    have n2 := h9 "Characters" hH (by decide)
    have n3 := h9 "Words" hW (by decide)
    simp [requiredSheetTitles, SHEET_NAMES, List.find?, habs, n1, n2, n3]

theorem fetchAndUploadData_benign (env : Env) (o : Oracle)
    (h1 : envStr env.FEISHU_APP_ID ≠ "") (h2 : envStr env.FEISHU_APP_SECRET ≠ "")
    (h3 : o.tokenResp.code = 0) (h4 : o.tokenResp.tenant_access_token ≠ "")
    (h5 : envStr env.FEISHU_SPREADSHEET_TOKEN ≠ "") (h6 : o.sheetsResp.code = 0)
    (h7 : ∀ t ∈ requiredSheetTitles, sheetMapGet o.sheetsResp.sheets t ≠ "")
    (h8 : o.batchResp.code = 0) :
    fetchAndUploadData env o =
      ([Event.netTokenExchange, Event.netSheetQuery, Event.netBatchGet] ++
          (processAndPublish env o o.batchResp.valueRanges).1,
        (processAndPublish env o o.batchResp.valueRanges).2) := by
  simp only [fetchAndUploadData, getFeishuToken_ok env o h1 h2 h3]
  simp only [getSheetInfo_ok o.tokenResp.tenant_access_token
    env.FEISHU_SPREADSHEET_TOKEN o h4 h5 h6 h7]
  simp [batchGetSheetData, h8]

theorem processAndPublish_empty (env : Env) (o : Oracle) (vrs : List ValueRange)
    (hc : processSheetData vrs[0]? = Except.ok [])
    (hch : processSheetData vrs[1]? = Except.ok [])
    (hw : processSheetData vrs[2]? = Except.ok [])
    (hsn : processSheetData vrs[3]? = Except.ok []) :
    processAndPublish env o vrs = ([], Except.error RunError.emptyDataset) := by
  simp [processAndPublish, hc, hch, hw, hsn]

theorem processAndPublish_hasData (env : Env) (o : Oracle) (vrs : List ValueRange)
    (c ch w s : List Record)
    (hc : processSheetData vrs[0]? = Except.ok c)
    (hch : processSheetData vrs[1]? = Except.ok ch)
    (hw : processSheetData vrs[2]? = Except.ok w)
    (hsn : processSheetData vrs[3]? = Except.ok s)
    (hne : c.length > 0 ∨ ch.length > 0 ∨ w.length > 0 ∨ s.length > 0) :
    processAndPublish env o vrs =
      (Event.localWrite :: (uploadToOSS env o).1,
        match (uploadToOSS env o).2 with
        | Except.error e => Except.error e
        | Except.ok _ => Except.ok (assembleAppData o.now c ch w s)) := by
  have hany : ([c.length, ch.length, w.length, s.length].any
      (fun count => decide (count > 0))) = true := by
    rcases hne with h | h | h | h <;>
      simp [List.any_cons, List.any_nil, h]
  simp only [processAndPublish, hc, hch, hw, hsn, hany, if_true]
  rcases huo : uploadToOSS env o with ⟨t4, r4⟩
  cases r4 <;> simp

/-! ## Concrete fixtures for witnesses and counterexamples -/

/-- A metadata response containing all four required sheets. -/
def sheetsOk : List Sheet :=
  [⟨"Courses", "st1"⟩, ⟨"Characters", "st2"⟩, ⟨"Words", "st3"⟩, ⟨"Sentences", "st4"⟩]

/-- A small non-empty value range: one header, one data row. -/
def rangeOk : ValueRange := ⟨"st1!A1:Z3000", some [[Cell.s "a"], [Cell.s "x"]]⟩

/-- The record `rangeOk` normalizes to. -/
def recOk : Record := [("a", Cell.s "x")]

/-- A header-only value range: normalizes to the empty sequence. -/
def rangeEmpty : ValueRange := ⟨"st1!A1:Z3000", some [[Cell.s "a"]]⟩

/-- An oracle where every external call succeeds and every table has data. -/
def oracleOk : Oracle :=
  ⟨⟨0, "success", "tenant-token"⟩, ⟨0, "success", sheetsOk⟩,
   ⟨0, "success", [rangeOk, rangeOk, rangeOk, rangeOk]⟩, true,
   "2024-01-01T00:00:00.000Z"⟩

/-- An oracle identical to `oracleOk` except that every sheet is header-only. -/
def oracleEmpty : Oracle :=
  ⟨⟨0, "success", "tenant-token"⟩, ⟨0, "success", sheetsOk⟩,
   ⟨0, "success", [rangeEmpty, rangeEmpty, rangeEmpty, rangeEmpty]⟩, true,
   "2024-01-01T00:00:00.000Z"⟩

/-- An oracle whose spreadsheet metadata lacks the `Words` sheet. -/
def oracleMissingWords : Oracle :=
  ⟨⟨0, "success", "tenant-token"⟩,
   ⟨0, "success", [⟨"Courses", "st1"⟩, ⟨"Characters", "st2"⟩, ⟨"Sentences", "st4"⟩]⟩,
   ⟨0, "success", [rangeOk, rangeOk, rangeOk, rangeOk]⟩, true,
   "2024-01-01T00:00:00.000Z"⟩

/-- An environment with every variable set. -/
def envFull : Env :=
  ⟨some "appid", some "appsecret", some "sptoken", some "key", some "keysecret",
   some "bucket", some "oss-cn-hangzhou"⟩

/-- `envFull` without the storage region. -/
def envNoRegion : Env :=
  ⟨some "appid", some "appsecret", some "sptoken", some "key", some "keysecret",
   some "bucket", none⟩

/-- `envFull` without the storage bucket. -/
def envNoBucket : Env :=
  ⟨some "appid", some "appsecret", some "sptoken", some "key", some "keysecret",
   none, some "oss-cn-hangzhou"⟩

example :
    fetchAndUploadData envNoRegion oracleOk =
      ([Event.netTokenExchange, Event.netSheetQuery, Event.netBatchGet,
        Event.localWrite, Event.netUpload],
        Except.ok (assembleAppData "2024-01-01T00:00:00.000Z" [recOk] [recOk]
          [recOk] [recOk])) := by rfl

/-! ## Claim C1: the `icon` column unwrapping -/

/-- The icon rule exactly as the specification phrases it: for a structured
cell, output its link field when present, else its display-text field, else
the empty string. A structured cell is the rich-text segment list the API
returns; "the object" is the cell's first segment, and a field is "present"
when it is non-empty (the spec's record model is string-valued and uses the
empty string as its notion of absence throughout). -/
def claimIconValue (segs : List Segment) : String :=
  match segs.head? with
  | none => ""
  | some seg =>
      if seg.link ≠ "" then seg.link
      else if seg.text ≠ "" then seg.text
      else ""

theorem iconValue_obj (segs : List Segment) :
    iconValue (Cell.obj segs) = Cell.s (claimIconValue segs) := rfl

/-- **C1.** For a header row of distinct string headers containing a column
literally named `icon`, a data row whose cell under `icon` is a structured
(non-string) object is normalized to the object's link field when present,
else its display-text field, else the empty string (`claimIconValue`), and a
plain string cell (including the empty string) passes through unchanged. The
examples of the claim — `{link: "L", text: "T"} ↦ "L"`, `{text: "T"} ↦ "T"`,
`"" ↦ ""` — are instances. -/
theorem C1_icon_unwrapping (hs : List String) (hnd : hs.Nodup) (hic : "icon" ∈ hs)
    (row : List Cell) (item : Record)
    (hrec : processRow (hs.map Cell.s) row = Except.ok item) :
    (∀ segs : List Segment,
        row.getD (hs.indexOf "icon") (Cell.s "") = Cell.obj segs →
        item.lookup "icon" = some (Cell.s (claimIconValue segs))) ∧
    (∀ t : String,
        row.getD (hs.indexOf "icon") (Cell.s "") = Cell.s t →
        item.lookup "icon" = some (Cell.s t)) ∧
    claimIconValue [⟨"L", "T"⟩] = "L" ∧
    claimIconValue [⟨"", "T"⟩] = "T" ∧
    claimIconValue [] = "" := by
  rw [processRow_strings] at hrec
  injection hrec with hrec
  subst hrec
  have htrim : jsTrim "icon" ≠ "" := by decide
  refine ⟨?_, ?_, by decide, by decide, by decide⟩
  · intro segs hcell
    rw [processRowPure_lookup hs "icon" hnd hic htrim row, hcell]
    rfl
  · intro t hcell
    rw [processRowPure_lookup hs "icon" hnd hic htrim row, hcell]
    by_cases h : t = ""
    · subst h
      rfl
    · simp [processCell, iconValue, coerce, truthy, h]

/-- Witness for C1: a concrete sheet with an `icon` column; the structured
cell `{link: "L", text: "T"}` gives field value `"L"`, the structured cell
with only `{text: "T"}` gives `"T"`, and a plain string passes through. -/
theorem C1_icon_unwrapping_witness :
    ([("icon", Cell.s "L"), ("x", Cell.s "v")] : Record).lookup "icon" =
        some (Cell.s "L") ∧
    ([("icon", Cell.s "T"), ("x", Cell.s "v")] : Record).lookup "icon" =
        some (Cell.s "T") ∧
    ([("icon", Cell.s "plain"), ("x", Cell.s "v")] : Record).lookup "icon" =
        some (Cell.s "plain") :=
  ⟨(C1_icon_unwrapping ["icon", "x"] (by decide) (by decide)
      [Cell.obj [⟨"L", "T"⟩], Cell.s "v"]
      [("icon", Cell.s "L"), ("x", Cell.s "v")] (by rfl)).1 [⟨"L", "T"⟩] (by rfl),
   (C1_icon_unwrapping ["icon", "x"] (by decide) (by decide)
      [Cell.obj [⟨"", "T"⟩], Cell.s "v"]
      [("icon", Cell.s "T"), ("x", Cell.s "v")] (by rfl)).1 [⟨"", "T"⟩] (by rfl),
   ((C1_icon_unwrapping ["icon", "x"] (by decide) (by decide)
      [Cell.s "plain", Cell.s "v"]
      [("icon", Cell.s "plain"), ("x", Cell.s "v")] (by rfl)).2.1 "plain" (by rfl))⟩

/-! ## Claim C2: header trimming -/

/-- **C2 counterexample.** The claim says every Record uses the trimmed header
text as the field name. The code only trims for the inclusion test and keys
the record by the untrimmed header: for header `" name "` the produced field
name is `" name "`, not `"name"`. -/
theorem C2_counterexample :
    processSheetData (some ⟨"s!A1:Z3000", some [[Cell.s " name "], [Cell.s "x"]]⟩) =
      Except.ok [[(" name ", Cell.s "x")]] ∧
    jsTrim " name " = "name" ∧
    ([(" name ", Cell.s "x")] : Record).lookup "name" = none ∧
    (" name " : String) ≠ "name" :=
  ⟨by rfl, by decide, by decide, by decide⟩

/-- **C2 amended.** Header cells are trimmed only to decide inclusion: a
column whose header is empty or whitespace-only is excluded from every
Record, and each included column's field name is the header's original
(untrimmed) text — the record's key sequence is exactly the sub-sequence of
headers whose trimmed text is non-empty. -/
theorem C2_amended (hs : List String) (hnd : hs.Nodup) (row : List Cell)
    (item : Record) (hrec : processRow (hs.map Cell.s) row = Except.ok item) :
    item.map Prod.fst = hs.filter (fun h => decide (jsTrim h ≠ "")) := by
  rw [processRow_strings] at hrec
  injection hrec with hrec
  subst hrec
  exact processRowPure_keys hs hnd row

/-- Witness for the amended C2: headers `" a "`, `" "` and `"b"` give a record
keyed by the untrimmed `" a "` and `"b"`; the whitespace-only column is
dropped. -/
theorem C2_amended_witness :
    ([(" a ", Cell.s "x"), ("b", Cell.s "z")] : Record).map Prod.fst =
      [" a ", " ", "b"].filter (fun h => decide (jsTrim h ≠ "")) :=
  C2_amended [" a ", " ", "b"] (by decide) [Cell.s "x", Cell.s "y", Cell.s "z"]
    [(" a ", Cell.s "x"), ("b", Cell.s "z")] (by rfl)

/-! ## Claim C4: short ranges normalize to the empty sequence -/

/-- **C4.** Every Value Range with fewer than 2 rows — a missing values grid,
an empty grid, or a header-only grid — normalizes to the empty sequence of
Records, with no error. (A run with no Value Range at all is a different
situation: there `processSheetData(undefined)` throws a `TypeError` from the
warn template, see `processSheetData`.) -/
theorem C4_short_range_empty :
    ∀ vr : ValueRange, (vr.values.getD []).length < 2 →
      processSheetData (some vr) = Except.ok [] := by
  intro vr hlen
  rcases vr with ⟨rangeStr, values⟩
  cases values with
  | none => rfl
  | some vs =>
      simp only [Option.getD] at hlen
      simp [processSheetData, if_pos hlen]

/-- Witness for C4: a missing grid, an empty grid and a header-only grid all
give the empty sequence. -/
theorem C4_short_range_empty_witness :
    processSheetData (some ⟨"r", none⟩) = Except.ok [] ∧
    processSheetData (some ⟨"r", some []⟩) = Except.ok [] ∧
    processSheetData (some ⟨"r", some [[Cell.s "h"]]⟩) = Except.ok [] :=
  ⟨C4_short_range_empty ⟨"r", none⟩ (by decide),
   C4_short_range_empty ⟨"r", some []⟩ (by decide),
   C4_short_range_empty ⟨"r", some [[Cell.s "h"]]⟩ (by decide)⟩

/-! ## Claim C5: rows shorter than the header are padded with empty strings -/

/-- **C5.** For distinct string headers, an included header whose column index
is at or beyond the row's length always gets the empty string as its field
value — the key is present, never missing; an included header whose index is
within the row gets the row's (string) value at that index. -/
theorem C5_short_row_padding (hs : List String) (hnd : hs.Nodup) (row : List Cell)
    (i : Nat) (hi : i < hs.length) (hinc : jsTrim (hs.get ⟨i, hi⟩) ≠ "")
    (item : Record) (hrec : processRow (hs.map Cell.s) row = Except.ok item) :
    (row.length ≤ i → item.lookup (hs.get ⟨i, hi⟩) = some (Cell.s "")) ∧
    (∀ (hlt : i < row.length) (t : String), row.get ⟨i, hlt⟩ = Cell.s t →
        item.lookup (hs.get ⟨i, hi⟩) = some (Cell.s t)) := by
  rw [processRow_strings] at hrec
  injection hrec with hrec
  subst hrec
  have hkey := processRowPure_lookup hs (hs.get ⟨i, hi⟩) hnd
    (hs.get_mem i hi) hinc row
  rw [List.get_indexOf hnd ⟨i, hi⟩] at hkey
  constructor
  · intro hge
    rw [hkey, List.getD_eq_default]
    · exact congrArg some (processCell_falsy _ _ (by simp [truthy]))
    · simpa using hge
  · intro hlt t ht
    rw [hkey, getD_lt row i hlt, ht]
    by_cases h : t = ""
    · subst h
      by_cases hk : hs.get ⟨i, hi⟩ = "icon" <;>
        simp [processCell, hk, iconValue, coerce, truthy]
    · by_cases hk : hs.get ⟨i, hi⟩ = "icon" <;>
        simp [processCell, hk, iconValue, coerce, truthy, h]

/-- Witness for C5: headers `["a", "b"]` with the one-cell row `["x"]`: field
`"b"` is present with value `""`, and field `"a"` carries the in-range value
`"x"`. -/
theorem C5_short_row_padding_witness :
    ([("a", Cell.s "x"), ("b", Cell.s "")] : Record).lookup "b" =
        some (Cell.s "") ∧
    ([("a", Cell.s "x"), ("b", Cell.s "")] : Record).lookup "a" =
        some (Cell.s "x") :=
  ⟨(C5_short_row_padding ["a", "b"] (by decide) [Cell.s "x"] 1 (by decide)
      (by decide) [("a", Cell.s "x"), ("b", Cell.s "")] (by rfl)).1 (by decide),
   (C5_short_row_padding ["a", "b"] (by decide) [Cell.s "x"] 0 (by decide)
      (by decide) [("a", Cell.s "x"), ("b", Cell.s "")] (by rfl)).2
      (by decide) "x" (by rfl)⟩

/-! ## Claim C6: a record is kept iff some field is non-empty -/

/-- **C6.** For a grid with string headers, the Record built from a data row
appears in the normalizer's output exactly when at least one of its field
values is non-empty; every record of the output has a non-empty field. -/
theorem C6_keep_iff_nonempty (rangeStr : String) (hs : List String)
    (rows : List (List Cell)) (row : List Cell) (hrow : row ∈ rows)
    (out : List Record)
    (hout : processSheetData (some ⟨rangeStr, some (hs.map Cell.s :: rows)⟩) =
      Except.ok out) :
    (processRowPure hs row ∈ out ↔
        ∃ p ∈ processRowPure hs row, p.2 ≠ Cell.s "") ∧
    (∀ r ∈ out, ∃ p ∈ r, p.2 ≠ Cell.s "") := by
  rw [processSheetData_strings] at hout
  injection hout with hout
  subst hout
  have hkeep : ∀ r : Record, keepRecord r = true ↔ ∃ p ∈ r, p.2 ≠ Cell.s "" := by
    intro r
    simp [keepRecord, List.any_eq_true]
  constructor
  · constructor
    · intro hmem
      exact (hkeep _).mp (List.mem_filter.mp hmem).2
    · intro hne
      exact List.mem_filter.mpr ⟨List.mem_map_of_mem _ hrow, (hkeep _).mpr hne⟩
  · intro r hr
    exact (hkeep r).mp (List.mem_filter.mp hr).2

/-- Witness for C6: of two rows, the one with a value survives and the
all-empty one is dropped. -/
theorem C6_keep_iff_nonempty_witness :
    (processRowPure ["a"] [Cell.s "x"] ∈ [[("a", Cell.s "x")]] ↔
        ∃ p ∈ processRowPure ["a"] [Cell.s "x"], p.2 ≠ Cell.s "") ∧
    (processRowPure ["a"] [Cell.s ""] ∈ [[("a", Cell.s "x")]] ↔
        ∃ p ∈ processRowPure ["a"] [Cell.s ""], p.2 ≠ Cell.s "") :=
  ⟨(C6_keep_iff_nonempty "r" ["a"] [[Cell.s "x"], [Cell.s ""]] [Cell.s "x"]
      (by decide) [[("a", Cell.s "x")]] (by rfl)).1,
   (C6_keep_iff_nonempty "r" ["a"] [[Cell.s "x"], [Cell.s ""]] [Cell.s ""]
      (by decide) [[("a", Cell.s "x")]] (by rfl)).1⟩

/-! ## Claim C10: falsy cells normalize to the empty string -/

/-- **C10.** For distinct string headers: an included non-`icon` header whose
column index lies within the row gets the empty string whenever the cell at
that index is falsy (empty string, 0, false, null); and a row all of whose
cells are falsy produces an all-empty Record and is dropped from the
output. -/
theorem C10_falsy_cells (hs : List String) (hnd : hs.Nodup) (row : List Cell) :
    (∀ (i : Nat) (hi : i < hs.length) (item : Record),
        processRow (hs.map Cell.s) row = Except.ok item →
        jsTrim (hs.get ⟨i, hi⟩) ≠ "" → hs.get ⟨i, hi⟩ ≠ "icon" →
        ∀ (hlt : i < row.length), truthy (row.get ⟨i, hlt⟩) = false →
        item.lookup (hs.get ⟨i, hi⟩) = some (Cell.s "")) ∧
    ((∀ c ∈ row, truthy c = false) →
      (∀ p ∈ processRowPure hs row, p.2 = Cell.s "") ∧
      ∀ (rangeStr : String) (rows : List (List Cell)) (out : List Record),
        row ∈ rows →
        processSheetData (some ⟨rangeStr, some (hs.map Cell.s :: rows)⟩) =
          Except.ok out →
        processRowPure hs row ∉ out) := by
  constructor
  · intro i hi item hrec hinc _hicon hlt hfalsy
    rw [processRow_strings] at hrec
    injection hrec with hrec
    subst hrec
    have hkey := processRowPure_lookup hs (hs.get ⟨i, hi⟩) hnd
      (hs.get_mem i hi) hinc row
    rw [List.get_indexOf hnd ⟨i, hi⟩] at hkey
    rw [hkey, getD_lt row i hlt]
    exact congrArg some (processCell_falsy _ _ hfalsy)
  · intro hfalsy
    have hall : ∀ p ∈ processRowPure hs row, p.2 = Cell.s "" :=
      processRowPureGo_falsy_values hs row hfalsy [] 0 (by simp)
    refine ⟨hall, ?_⟩
    intro rangeStr rows out hrow hout hmem
    rw [processSheetData_strings] at hout
    injection hout with hout
    subst hout
    have hkeep := (List.mem_filter.mp hmem).2
    simp only [keepRecord, List.any_eq_true] at hkeep
    rcases hkeep with ⟨p, hp, hne⟩
    rw [hall p hp] at hne
    simp at hne

/-! ## Claim C3: configuration errors -/

/-- **C3 counterexample.** The claim says the absence of any required value —
storage region included — is a fatal configuration error raised before any
network call. In fact: with `OSS_REGION` absent the run succeeds outright
(the region is defaulted, never checked), and with `OSS_BUCKET` absent the
configuration error is raised only at upload time, after all three Feishu
network calls and the local file write. -/
theorem C3_counterexample :
    envNoRegion.OSS_REGION = none ∧
    fetchAndUploadData envNoRegion oracleOk =
      ([Event.netTokenExchange, Event.netSheetQuery, Event.netBatchGet,
        Event.localWrite, Event.netUpload],
        Except.ok (assembleAppData "2024-01-01T00:00:00.000Z" [recOk] [recOk]
          [recOk] [recOk])) ∧
    envNoBucket.OSS_BUCKET = none ∧
    fetchAndUploadData envNoBucket oracleOk =
      ([Event.netTokenExchange, Event.netSheetQuery, Event.netBatchGet,
        Event.localWrite],
        Except.error (RunError.config missingBucketMsg)) :=
  ⟨rfl, by rfl, rfl, by rfl⟩

/-- **C3 amended.** Absence of the app id or app secret fails the run with a
configuration error before any network call; absence of the spreadsheet
identifier fails with a configuration error after the token-exchange call but
before any sheet network call; absence of the storage key, secret or bucket
fails with a configuration error only at upload time, after the three fetch
calls and the local file write; the storage region is not required — with it
absent (and everything else in place) the run succeeds. -/
theorem C3_amended :
    (∀ (env : Env) (o : Oracle),
        envStr env.FEISHU_APP_ID = "" ∨ envStr env.FEISHU_APP_SECRET = "" →
        fetchAndUploadData env o =
          ([], Except.error (RunError.config feishuCredMsg))) ∧
    (∀ (env : Env) (o : Oracle),
        envStr env.FEISHU_APP_ID ≠ "" → envStr env.FEISHU_APP_SECRET ≠ "" →
        o.tokenResp.code = 0 → o.tokenResp.tenant_access_token ≠ "" →
        envStr env.FEISHU_SPREADSHEET_TOKEN = "" →
        fetchAndUploadData env o =
          ([Event.netTokenExchange],
            Except.error (RunError.config sheetInfoArgMsg))) ∧
    (∀ (env : Env) (o : Oracle) (c ch w s : List Record),
        envStr env.FEISHU_APP_ID ≠ "" → envStr env.FEISHU_APP_SECRET ≠ "" →
        o.tokenResp.code = 0 → o.tokenResp.tenant_access_token ≠ "" →
        envStr env.FEISHU_SPREADSHEET_TOKEN ≠ "" → o.sheetsResp.code = 0 →
        (∀ t ∈ requiredSheetTitles, sheetMapGet o.sheetsResp.sheets t ≠ "") →
        o.batchResp.code = 0 →
        processSheetData o.batchResp.valueRanges[0]? = Except.ok c →
        processSheetData o.batchResp.valueRanges[1]? = Except.ok ch →
        processSheetData o.batchResp.valueRanges[2]? = Except.ok w →
        processSheetData o.batchResp.valueRanges[3]? = Except.ok s →
        c.length > 0 ∨ ch.length > 0 ∨ w.length > 0 ∨ s.length > 0 →
        (envStr env.OSS_ACCESS_KEY_ID = "" ∨ envStr env.OSS_ACCESS_KEY_SECRET = "" ∨
          envStr env.OSS_BUCKET = "") →
        ∃ m, fetchAndUploadData env o =
          ([Event.netTokenExchange, Event.netSheetQuery, Event.netBatchGet,
            Event.localWrite], Except.error (RunError.config m))) ∧
    (∀ (env : Env) (o : Oracle) (c ch w s : List Record),
        envStr env.FEISHU_APP_ID ≠ "" → envStr env.FEISHU_APP_SECRET ≠ "" →
        o.tokenResp.code = 0 → o.tokenResp.tenant_access_token ≠ "" →
        envStr env.FEISHU_SPREADSHEET_TOKEN ≠ "" → o.sheetsResp.code = 0 →
        (∀ t ∈ requiredSheetTitles, sheetMapGet o.sheetsResp.sheets t ≠ "") →
        o.batchResp.code = 0 →
        processSheetData o.batchResp.valueRanges[0]? = Except.ok c →
        processSheetData o.batchResp.valueRanges[1]? = Except.ok ch →
        processSheetData o.batchResp.valueRanges[2]? = Except.ok w →
        processSheetData o.batchResp.valueRanges[3]? = Except.ok s →
        c.length > 0 ∨ ch.length > 0 ∨ w.length > 0 ∨ s.length > 0 →
        envStr env.OSS_ACCESS_KEY_ID ≠ "" → envStr env.OSS_ACCESS_KEY_SECRET ≠ "" →
        envStr env.OSS_BUCKET ≠ "" → o.uploadOk = true →
        fetchAndUploadData env o =
          ([Event.netTokenExchange, Event.netSheetQuery, Event.netBatchGet,
            Event.localWrite, Event.netUpload],
            Except.ok (assembleAppData o.now c ch w s))) := by
  refine ⟨?_, ?_, ?_, ?_⟩
  · intro env o hA
    simp [fetchAndUploadData, getFeishuToken, hA]
  · intro env o h1 h2 h3 h4 h5
    simp only [fetchAndUploadData, getFeishuToken_ok env o h1 h2 h3]
    simp [getSheetInfo, h4, h5]
  · intro env o c ch w s h1 h2 h3 h4 h5 h6 h7 h8 hc hch hw hsn hne hoss
    rw [fetchAndUploadData_benign env o h1 h2 h3 h4 h5 h6 h7 h8,
      processAndPublish_hasData env o o.batchResp.valueRanges c ch w s
        hc hch hw hsn hne]
    rcases hoss with hk | hk | hk
    · exact ⟨missingKeyIdMsg, by simp [uploadToOSS, hk]⟩
    · by_cases hid : envStr env.OSS_ACCESS_KEY_ID = ""
      · exact ⟨missingKeyIdMsg, by simp [uploadToOSS, hid]⟩
      · exact ⟨missingKeySecretMsg, by simp [uploadToOSS, hid, hk]⟩
    · by_cases hid : envStr env.OSS_ACCESS_KEY_ID = ""
      · exact ⟨missingKeyIdMsg, by simp [uploadToOSS, hid]⟩
      · by_cases hsec : envStr env.OSS_ACCESS_KEY_SECRET = ""
        · exact ⟨missingKeySecretMsg, by simp [uploadToOSS, hid, hsec]⟩
        · exact ⟨missingBucketMsg, by simp [uploadToOSS, hid, hsec, hk]⟩
  · intro env o c ch w s h1 h2 h3 h4 h5 h6 h7 h8 hc hch hw hsn hne hk1 hk2 hk3 hup
    rw [fetchAndUploadData_benign env o h1 h2 h3 h4 h5 h6 h7 h8,
      processAndPublish_hasData env o o.batchResp.valueRanges c ch w s
        hc hch hw hsn hne]
    simp [uploadToOSS, hk1, hk2, hk3, hup]

/-- Witness for the amended C3: its four cases at concrete inputs — missing
app id; missing spreadsheet token; missing bucket (error after the fetches
and the local write); missing region only (full success). -/
theorem C3_amended_witness :
    fetchAndUploadData ⟨none, some "appsecret", some "sptoken", some "key",
        some "keysecret", some "bucket", none⟩ oracleOk =
      ([], Except.error (RunError.config feishuCredMsg)) ∧
    fetchAndUploadData ⟨some "appid", some "appsecret", none, some "key",
        some "keysecret", some "bucket", none⟩ oracleOk =
      ([Event.netTokenExchange], Except.error (RunError.config sheetInfoArgMsg)) ∧
    (∃ m, fetchAndUploadData envNoBucket oracleOk =
      ([Event.netTokenExchange, Event.netSheetQuery, Event.netBatchGet,
        Event.localWrite], Except.error (RunError.config m))) ∧
    fetchAndUploadData envNoRegion oracleOk =
      ([Event.netTokenExchange, Event.netSheetQuery, Event.netBatchGet,
        Event.localWrite, Event.netUpload],
        Except.ok (assembleAppData "2024-01-01T00:00:00.000Z" [recOk] [recOk]
          [recOk] [recOk])) :=
  ⟨C3_amended.1 ⟨none, some "appsecret", some "sptoken", some "key",
      some "keysecret", some "bucket", none⟩ oracleOk (by decide),
   C3_amended.2.1 ⟨some "appid", some "appsecret", none, some "key",
      some "keysecret", some "bucket", none⟩ oracleOk (by decide) (by decide)
      (by decide) (by decide) (by decide),
   C3_amended.2.2.1 envNoBucket oracleOk [recOk] [recOk] [recOk] [recOk]
      (by decide) (by decide) (by decide) (by decide) (by decide) (by decide)
      (by decide) (by decide) (by rfl) (by rfl) (by rfl) (by rfl)
      (by decide) (by decide),
   C3_amended.2.2.2 envNoRegion oracleOk [recOk] [recOk] [recOk] [recOk]
      (by decide) (by decide) (by decide) (by decide) (by decide) (by decide)
      (by decide) (by decide) (by rfl) (by rfl) (by rfl) (by rfl)
      (by decide) (by decide) (by decide) (by decide) (by decide)⟩

/-! ## Claim C7: a missing required sheet aborts the run -/

/-- **C7.** When a required sheet title is absent from the spreadsheet
metadata (and the other required titles resolve), the run stops at the
sheet-metadata stage with a missing-sheet error naming that title; the trace
shows no local write, no batch read and no upload — so no output file is
written and the run ends in the error path (`process.exit(1)`). -/
theorem C7_missing_sheet (env : Env) (o : Oracle) (name : String)
    (h1 : envStr env.FEISHU_APP_ID ≠ "") (h2 : envStr env.FEISHU_APP_SECRET ≠ "")
    (h3 : o.tokenResp.code = 0) (h4 : o.tokenResp.tenant_access_token ≠ "")
    (h5 : envStr env.FEISHU_SPREADSHEET_TOKEN ≠ "") (h6 : o.sheetsResp.code = 0)
    (h7 : name ∈ requiredSheetTitles)
    (h8 : ∀ sh ∈ o.sheetsResp.sheets, sh.title ≠ name)
    (h9 : ∀ t ∈ requiredSheetTitles, t ≠ name →
        sheetMapGet o.sheetsResp.sheets t ≠ "") :
    fetchAndUploadData env o =
      ([Event.netTokenExchange, Event.netSheetQuery],
        Except.error (RunError.missingSheet name)) ∧
    Event.localWrite ∉ [Event.netTokenExchange, Event.netSheetQuery] ∧
    Event.netBatchGet ∉ [Event.netTokenExchange, Event.netSheetQuery] ∧
    Event.netUpload ∉ [Event.netTokenExchange, Event.netSheetQuery] := by
  refine ⟨?_, by decide, by decide, by decide⟩
  have habs : sheetMapGet o.sheetsResp.sheets name = "" :=
    sheetMapGet_absent o.sheetsResp.sheets name h8
  have hfind := find_missing_unique o.sheetsResp.sheets name h7 habs h9
  simp only [fetchAndUploadData, getFeishuToken_ok env o h1 h2 h3]
  simp only [getSheetInfo_missing o.tokenResp.tenant_access_token
    env.FEISHU_SPREADSHEET_TOKEN o name h4 h5 h6 hfind]
  rfl

/-- Witness for C7: metadata lacking the `Words` sheet makes the run fail
with a missing-sheet error naming `Words`, with no write and no further
network calls. -/
theorem C7_missing_sheet_witness :
    fetchAndUploadData envFull oracleMissingWords =
      ([Event.netTokenExchange, Event.netSheetQuery],
        Except.error (RunError.missingSheet "Words")) ∧
    Event.localWrite ∉ [Event.netTokenExchange, Event.netSheetQuery] ∧
    Event.netBatchGet ∉ [Event.netTokenExchange, Event.netSheetQuery] ∧
    Event.netUpload ∉ [Event.netTokenExchange, Event.netSheetQuery] :=
  C7_missing_sheet envFull oracleMissingWords "Words" (by decide) (by decide)
    (by decide) (by decide) (by decide) (by decide) (by decide) (by decide)
    (by decide)

/-! ## Claim C8: an all-empty dataset aborts before write and upload -/

/-- **C8.** When all four sheets normalize to empty sequences, the run raises
the empty-dataset error (`process.exit(1)` follows) and its trace contains
neither the local file write nor the upload call. -/
theorem C8_empty_dataset (env : Env) (o : Oracle)
    (h1 : envStr env.FEISHU_APP_ID ≠ "") (h2 : envStr env.FEISHU_APP_SECRET ≠ "")
    (h3 : o.tokenResp.code = 0) (h4 : o.tokenResp.tenant_access_token ≠ "")
    (h5 : envStr env.FEISHU_SPREADSHEET_TOKEN ≠ "") (h6 : o.sheetsResp.code = 0)
    (h7 : ∀ t ∈ requiredSheetTitles, sheetMapGet o.sheetsResp.sheets t ≠ "")
    (h8 : o.batchResp.code = 0)
    (hc : processSheetData o.batchResp.valueRanges[0]? = Except.ok [])
    (hch : processSheetData o.batchResp.valueRanges[1]? = Except.ok [])
    (hw : processSheetData o.batchResp.valueRanges[2]? = Except.ok [])
    (hsn : processSheetData o.batchResp.valueRanges[3]? = Except.ok []) :
    fetchAndUploadData env o =
      ([Event.netTokenExchange, Event.netSheetQuery, Event.netBatchGet],
        Except.error RunError.emptyDataset) ∧
    Event.localWrite ∉ [Event.netTokenExchange, Event.netSheetQuery,
      Event.netBatchGet] ∧
    Event.netUpload ∉ [Event.netTokenExchange, Event.netSheetQuery,
      Event.netBatchGet] := by
  refine ⟨?_, by decide, by decide⟩
  rw [fetchAndUploadData_benign env o h1 h2 h3 h4 h5 h6 h7 h8,
    processAndPublish_empty env o o.batchResp.valueRanges hc hch hw hsn]
  rfl

/-- Witness for C8: four header-only sheets give the empty-dataset error with
no write and no upload in the trace. -/
theorem C8_empty_dataset_witness :
    fetchAndUploadData envFull oracleEmpty =
      ([Event.netTokenExchange, Event.netSheetQuery, Event.netBatchGet],
        Except.error RunError.emptyDataset) ∧
    Event.localWrite ∉ [Event.netTokenExchange, Event.netSheetQuery,
      Event.netBatchGet] ∧
    Event.netUpload ∉ [Event.netTokenExchange, Event.netSheetQuery,
      Event.netBatchGet] :=
  C8_empty_dataset envFull oracleEmpty (by decide) (by decide) (by decide)
    (by decide) (by decide) (by decide) (by decide) (by decide) (by rfl)
    (by rfl) (by rfl) (by rfl)

/-! ## Claim C9: the shape of the App Data Document -/

/-- **C9.** Every assembled App Data Document has exactly the key sequence
`lastUpdated, courses, characters, words, sentences` — the four table keys
are always present, possibly as empty sequences — and every successful run
produces exactly `assembleAppData` of the four tables normalized from the
batch response's value ranges in positions 0-3, so the assembly order is
fixed by position, independently of any completion order. -/
theorem C9_document_shape (env : Env) (o : Oracle) (trace : List Event)
    (doc : AppDoc) (hrun : fetchAndUploadData env o = (trace, Except.ok doc)) :
    (∀ (ts : String) (c ch w s : List Record),
        (assembleAppData ts c ch w s).map Prod.fst =
          ["lastUpdated", "courses", "characters", "words", "sentences"]) ∧
    doc.map Prod.fst =
      ["lastUpdated", "courses", "characters", "words", "sentences"] ∧
    ∃ c ch w s,
      processSheetData o.batchResp.valueRanges[0]? = Except.ok c ∧
      processSheetData o.batchResp.valueRanges[1]? = Except.ok ch ∧
      processSheetData o.batchResp.valueRanges[2]? = Except.ok w ∧
      processSheetData o.batchResp.valueRanges[3]? = Except.ok s ∧
      doc = assembleAppData o.now c ch w s := by
  refine ⟨fun ts c ch w s => rfl, ?_⟩
  by_cases hA : envStr env.FEISHU_APP_ID = "" ∨ envStr env.FEISHU_APP_SECRET = ""
  · exfalso
    simp [fetchAndUploadData, getFeishuToken, hA] at hrun
  push_neg at hA
  by_cases hT : o.tokenResp.code = 0
  swap
  · exfalso
    simp [fetchAndUploadData, getFeishuToken, hA.1, hA.2, hT] at hrun
  simp only [fetchAndUploadData, getFeishuToken_ok env o hA.1 hA.2 hT] at hrun
  by_cases hS : o.tokenResp.tenant_access_token = "" ∨
      envStr env.FEISHU_SPREADSHEET_TOKEN = ""
  · exfalso
    simp [getSheetInfo, hS] at hrun
  push_neg at hS
  by_cases hQ : o.sheetsResp.code = 0
  swap
  · exfalso
    simp [getSheetInfo, hS.1, hS.2, hQ] at hrun
  rcases hfind : requiredSheetTitles.find?
      (fun name => decide (sheetMapGet o.sheetsResp.sheets name = "")) with _ | nm
  swap
  · exfalso
    simp [getSheetInfo, hS.1, hS.2, hQ, hfind] at hrun
  simp only [getSheetInfo, hS.1, hS.2, hQ, hfind] at hrun
  rw [if_neg (by simp [hS.1, hS.2]), if_neg (by simp [hQ])] at hrun
  by_cases hB : o.batchResp.code = 0
  swap
  · exfalso
    simp [batchGetSheetData, hB] at hrun
  simp only [batchGetSheetData, hB] at hrun
  rw [if_neg (by simp [hB])] at hrun
  rcases hc : processSheetData o.batchResp.valueRanges[0]? with m | c
  · exfalso
    simp [processAndPublish, hc] at hrun
  rcases hch : processSheetData o.batchResp.valueRanges[1]? with m | ch
  · exfalso
    simp [processAndPublish, hc, hch] at hrun
  rcases hw : processSheetData o.batchResp.valueRanges[2]? with m | w
  · exfalso
    simp [processAndPublish, hc, hch, hw] at hrun
  rcases hsn : processSheetData o.batchResp.valueRanges[3]? with m | s
  · exfalso
    simp [processAndPublish, hc, hch, hw, hsn] at hrun
  by_cases hany : ([c.length, ch.length, w.length, s.length].any
      (fun count => decide (count > 0))) = true
  swap
  · exfalso
    simp only [processAndPublish, hc, hch, hw, hsn,
      Bool.not_eq_true] at hrun
    rw [Bool.not_eq_true] at hany
    rw [hany] at hrun
    simp at hrun
  simp only [processAndPublish, hc, hch, hw, hsn, hany, if_true] at hrun
  rcases huo : uploadToOSS env o with ⟨t4, r4⟩
  rw [huo] at hrun
  cases r4 with
  | error e =>
      exfalso
      simp at hrun
  | ok u =>
      simp only [Prod.mk.injEq, Except.ok.injEq] at hrun
      refine ⟨?_, c, ch, w, s, rfl, rfl, rfl, rfl, hrun.2.symm⟩
      rw [← hrun.2]
      rfl

/-- Witness for C9: the successful concrete run produces the document with
the fixed five-key shape assembled from the four batch positions. -/
theorem C9_document_shape_witness :
    (assembleAppData "2024-01-01T00:00:00.000Z" [recOk] [recOk] [recOk]
        [recOk]).map Prod.fst =
      ["lastUpdated", "courses", "characters", "words", "sentences"] ∧
    ∃ c ch w s,
      processSheetData oracleOk.batchResp.valueRanges[0]? = Except.ok c ∧
      processSheetData oracleOk.batchResp.valueRanges[1]? = Except.ok ch ∧
      processSheetData oracleOk.batchResp.valueRanges[2]? = Except.ok w ∧
      processSheetData oracleOk.batchResp.valueRanges[3]? = Except.ok s ∧
      assembleAppData "2024-01-01T00:00:00.000Z" [recOk] [recOk] [recOk]
        [recOk] = assembleAppData oracleOk.now c ch w s :=
  ⟨(C9_document_shape envFull oracleOk
      [Event.netTokenExchange, Event.netSheetQuery, Event.netBatchGet,
        Event.localWrite, Event.netUpload]
      (assembleAppData "2024-01-01T00:00:00.000Z" [recOk] [recOk] [recOk]
        [recOk]) (by rfl)).2.1,
   (C9_document_shape envFull oracleOk
      [Event.netTokenExchange, Event.netSheetQuery, Event.netBatchGet,
        Event.localWrite, Event.netUpload]
      (assembleAppData "2024-01-01T00:00:00.000Z" [recOk] [recOk] [recOk]
        [recOk]) (by rfl)).2.2⟩

/-- Witness for C10: a row of zeros under headers `["a", "b"]` normalizes to
an all-empty record and is dropped; the falsy cell `0` under `"a"` becomes
`""`. -/
theorem C10_falsy_cells_witness :
    ([("a", Cell.s ""), ("b", Cell.s "y")] : Record).lookup "a" =
        some (Cell.s "") ∧
    processRowPure ["a", "b"] [Cell.num 0, Cell.num 0] ∉
      ([] : List Record) :=
  ⟨(C10_falsy_cells ["a", "b"] (by decide) [Cell.num 0, Cell.s "y"]).1 0
      (by decide) [("a", Cell.s ""), ("b", Cell.s "y")] (by rfl) (by decide)
      (by decide) (by decide) (by decide),
   ((C10_falsy_cells ["a", "b"] (by decide) [Cell.num 0, Cell.num 0]).2
      (by decide)).2 "r" [[Cell.num 0, Cell.num 0]] [] (by decide) (by rfl)⟩

end EasyHanzi
